import Mathlib

/-!
Verification development for a tile-based dungeon RL environment.

Part 1 embeds `map_env.py` (the `MapEnv` gymnasium environment):
wall/goal matrix derivation from tile layers, the distance oracle,
observation construction, `reset`, and `step`.

Part 2 embeds `test_env.py` (the procedural dungeon generator):
room placement with overlap rejection, L-shaped corridor carving,
castle landmark placement, decoration scattering and spawn points.

Conventions of the embedding:
- Python ints are `Int`/`Nat`; coordinates are `Int × Int` pairs `(x, y)`.
- numpy `uint8` matrices are functions `Nat → Nat → Nat` indexed `m y x`,
  storing only the values the source writes (0/1 for walls, 0/255 for goals).
- A raw numpy lookup `m[y, x]` wraps negative indices `≥ -size` and raises
  `IndexError` otherwise; `npIndex` returns `Option Nat` (`none` = raised).
- Floating point: the source stores `math.sqrt` of integer squared distances
  and only ever compares such values (`<` and `min`).  Since `sqrt` is
  strictly monotone on the represented integers (all far below the range
  where double rounding could merge distinct values), comparing the exact
  squared distances is equivalent; the embedding therefore keeps squared
  distances as `Option Nat`, with `none` for Python's `float('inf')`
  sentinel returned when there are no goal locations.
- Rewards (`1.0`, `-0.5`, `-5`, `100.0`, all exactly representable doubles)
  are `Rat`.
-/

/-- One cell of a matrix state during `MapEnv.__init__` derivation:
`set_at m y x v` is the functional form of the numpy write `m[y, x] = v`. -/
def set_at (m : Nat → Nat → Nat) (y x v : Nat) : Nat → Nat → Nat :=
  fun Y X => if Y = y ∧ X = x then v else m Y X

/-- The wall/goal matrices plus collected enemy (goal) locations built by
the layer scan of `MapEnv.__init__` (map_env.py lines 28-43). -/
structure Mats where
  wall : Nat → Nat → Nat
  goal : Nat → Nat → Nat
  enemy_locations : List (Int × Int)

/-- Processing of a single `(x, y, gid)` tile entry of a visible tile layer
(map_env.py lines 33-42): walkable gids clear the wall bit, enemy gids clear
the wall bit, set the goal bit and record the location, and every other gid
is marked as a wall. -/
def apply_tile (walkable_gids enemy_gids : List Nat) (m : Mats) (t : Nat × Nat × Nat) : Mats :=
  let x := t.1
  let y := t.2.1
  let gid := t.2.2
  if gid ∈ walkable_gids then
    { m with wall := set_at m.wall y x 0 }
  else if gid ∈ enemy_gids then
    { wall := set_at m.wall y x 0
      goal := set_at m.goal y x 255
      enemy_locations := m.enemy_locations ++ [((x : Int), (y : Int))] }
  else
    { m with wall := set_at m.wall y x 1 }

/-- Matrix derivation of `MapEnv.__init__` (map_env.py lines 28-43): the wall
matrix starts all ones, the goal matrix all zeros, and the `(x, y, gid)`
entries of the visible tile layers are folded in iteration order.  `tiles` is
the concatenation of the per-layer cell streams; a map with several visible
tile layers lists the same coordinate several times. -/
def build_matrices (walkable_gids enemy_gids : List Nat) (tiles : List (Nat × Nat × Nat)) : Mats :=
  tiles.foldl (apply_tile walkable_gids enemy_gids) ⟨fun _ _ => 1, fun _ _ => 0, []⟩

/-- The `MapEnv` state: map dimensions, derived matrices, configured start
tile, current player position, enemy (goal) locations and the cached
squared nearest-goal distance (`none` models `float('inf')`). -/
structure MapEnv where
  map_width : Nat
  map_height : Nat
  wall : Nat → Nat → Nat
  goal : Nat → Nat → Nat
  start_pos : Int × Int
  player_pos : Int × Int
  enemy_locations : List (Int × Int)
  last_distance : Option Nat

/-- Squared Euclidean distance between two integer coordinates; the source
compares `math.sqrt` of exactly this quantity. -/
def dist_sq (p e : Int × Int) : Nat :=
  ((p.1 - e.1) ^ 2 + (p.2 - e.2) ^ 2).toNat

/-- `MapEnv._get_distance_to_nearest_enemy` (map_env.py lines 46-50), in
squared form: `none` models the `float('inf')` returned for an empty enemy
list, otherwise the minimum squared distance over all enemy locations. -/
def get_distance_to_nearest_enemy (p : Int × Int) : List (Int × Int) → Option Nat
  | [] => none
  | e :: es => some (es.foldl (fun m q => min m (dist_sq p q)) (dist_sq p e))

/-- Comparison `new < last` between two cached distances as the source
performs it on floats: both finite compares the (squared) magnitudes, any
finite value is below `inf`, and `inf < inf` is false. -/
def dist_lt : Option Nat → Option Nat → Bool
  | some a, some b => decide (a < b)
  | some _, none => true
  | none, _ => false

/-- Raw numpy indexing `m[y, x]` on a `rows × cols` matrix: indices in
`[-size, size)` are accepted (negative ones wrap), anything else raises
`IndexError`, modelled as `none`. -/
def npIndex (rows cols : Nat) (m : Nat → Nat → Nat) (y x : Int) : Option Nat :=
  if -(rows : Int) ≤ y ∧ y < (rows : Int) ∧ -(cols : Int) ≤ x ∧ x < (cols : Int) then
    some (m (if y < 0 then y + rows else y).toNat (if x < 0 then x + cols else x).toNat)
  else none

/-- Candidate coordinate computed by `MapEnv.step` (map_env.py lines 66-71):
action 0 is up, 1 down, 2 left, 3 right, and any other action leaves the
coordinate unchanged (no `else` branch exists in the source). -/
def candidate (p : Int × Int) (a : Int) : Int × Int :=
  if a = 0 then (p.1, p.2 - 1)
  else if a = 1 then (p.1, p.2 + 1)
  else if a = 2 then (p.1 - 1, p.2)
  else if a = 3 then (p.1 + 1, p.2)
  else p

/-- Guarded wall lookup used inside the in-bounds branch of `step`
(map_env.py line 78); the guard makes the indices non-negative. -/
def wall_at (e : MapEnv) (p : Int × Int) : Nat :=
  e.wall p.2.toNat p.1.toNat

/-- Goal matrix value at a coordinate, with the in-bounds `toNat` view used
for statements about the guarded branches. -/
def goal_at (e : MapEnv) (p : Int × Int) : Nat :=
  e.goal p.2.toNat p.1.toNat

/-- The in-bounds test of `MapEnv.step` line 75, `0 <= y < H and 0 <= x < W`. -/
def pos_in_bounds (e : MapEnv) (p : Int × Int) : Prop :=
  0 ≤ p.2 ∧ p.2 < (e.map_height : Int) ∧ 0 ≤ p.1 ∧ p.1 < (e.map_width : Int)

instance (e : MapEnv) (p : Int × Int) : Decidable (pos_in_bounds e p) := by
  unfold pos_in_bounds; infer_instance

/-- The unconditional victory check closing `MapEnv.step` (map_env.py lines
93-95): reads `goal_matrix[player_pos[1], player_pos[0]]` with raw numpy
indexing and overrides the reward with `100.0` and `done = True` when it is
255.  `none` models the `IndexError` raised for a far out-of-range position. -/
def goal_outcome (e : MapEnv) (r : Rat) : Option (Rat × Bool) :=
  (npIndex e.map_height e.map_width e.goal e.player_pos.2 e.player_pos.1).map
    (fun g => if g = 255 then ((100 : Rat), true) else (r, false))

/-- `MapEnv.step` (map_env.py lines 65-97).  The returned pair is the
post-call environment state (the source mutates `self` in place) together
with `some (reward, done)` for a normal return, or `none` when the final
goal lookup raises.  Blocked moves (out of bounds first, then wall) keep the
state and score `-5`; a successful move relocates the player, recomputes the
nearest-goal distance, scores `1.0` on a strict decrease and `-0.5`
otherwise, and caches the new distance — all before the victory check. -/
def step (e : MapEnv) (a : Int) : MapEnv × Option (Rat × Bool) :=
  let c := candidate e.player_pos a
  if ¬ pos_in_bounds e c then
    (e, goal_outcome e (-5))
  else if wall_at e c = 1 then
    (e, goal_outcome e (-5))
  else
    let nd := get_distance_to_nearest_enemy c e.enemy_locations
    let e2 := { e with player_pos := c, last_distance := nd }
    (e2, goal_outcome e2 (if dist_lt nd e.last_distance then (1 : Rat) else -1/2))

/-- `MapEnv.reset` (map_env.py lines 59-63): the player returns to the
configured start tile and the cached distance is recomputed there.  (The
`super().reset(seed=seed)` call only reseeds gymnasium RNG state the
environment never consumes.) -/
def reset (e : MapEnv) : MapEnv :=
  { e with player_pos := e.start_pos
           last_distance := get_distance_to_nearest_enemy e.start_pos e.enemy_locations }

/-- `MapEnv._get_observation` (map_env.py lines 52-57): channel 0 is the wall
matrix scaled to 255, channel 1 marks the player tile (only when the player
is in bounds), channel 2 is the goal matrix.  `observation e c y x` is the
value at channel `c`, row `y`, column `x`. -/
def observation (e : MapEnv) : Nat → Nat → Nat → Nat :=
  fun c y x =>
    if c = 0 then e.wall y x * 255
    else if c = 1 then
      (if 0 ≤ e.player_pos.2 ∧ e.player_pos.2 < (e.map_height : Int) ∧
          0 ≤ e.player_pos.1 ∧ e.player_pos.1 < (e.map_width : Int) ∧
          (y : Int) = e.player_pos.2 ∧ (x : Int) = e.player_pos.1
       then 255 else 0)
    else e.goal y x

/-- `MapEnv.__init__` (map_env.py lines 9-44): derive the matrices from the
visible-layer tile stream, start the player at the configured tile and cache
the initial nearest-goal distance. -/
def mkMapEnv (w h : Nat) (tiles : List (Nat × Nat × Nat))
    (walkable_gids enemy_gids : List Nat) (player_start_tile : Int × Int) : MapEnv :=
  let m := build_matrices walkable_gids enemy_gids tiles
  { map_width := w
    map_height := h
    wall := m.wall
    goal := m.goal
    start_pos := player_start_tile
    player_pos := player_start_tile
    enemy_locations := m.enemy_locations
    last_distance := get_distance_to_nearest_enemy player_start_tile m.enemy_locations }

/-- One external call on the environment: a `reset()` or a `step(a)`. -/
inductive EnvOp where
  | opReset : EnvOp
  | opStep (a : Int) : EnvOp

/-- Environment state after one call; for `step` this is the post-call state
whether or not the final goal lookup raises (the source mutates `self`
before that lookup). -/
def apply_op (e : MapEnv) : EnvOp → MapEnv
  | .opReset => reset e
  | .opStep a => (step e a).1

/-- Environment state after a sequence of `reset`/`step` calls. -/
def run_ops (e : MapEnv) : List EnvOp → MapEnv
  | [] => e
  | op :: ops => run_ops (apply_op e op) ops

/-- A concrete 1 × 1 all-walkable, goal-free environment with no enemies,
used as a witness state. -/
def envNoGoal : MapEnv :=
  { map_width := 1
    map_height := 1
    wall := fun _ _ => 0
    goal := fun _ _ => 0
    start_pos := (0, 0)
    player_pos := (0, 0)
    enemy_locations := []
    last_distance := none }

/-- A concrete 1 × 1 environment whose only tile is a goal tile. -/
def envOnGoal : MapEnv :=
  { map_width := 1
    map_height := 1
    wall := fun _ _ => 0
    goal := fun _ _ => 255
    start_pos := (0, 0)
    player_pos := (0, 0)
    enemy_locations := [(0, 0)]
    last_distance := some 0 }

/-- A concrete 2 × 1 goal-free environment with an enemy location at the
origin and the player one tile to its right. -/
def envTwo : MapEnv :=
  { map_width := 2
    map_height := 1
    wall := fun _ _ => 0
    goal := fun _ _ => 0
    start_pos := (1, 0)
    player_pos := (1, 0)
    enemy_locations := [(0, 0)]
    last_distance := some 1 }

/-!
Part 2: the procedural dungeon generator of `test_env.py`.

The source draws from Python's global `random` module (a Mersenne Twister
seeded once in `main`).  The twister itself is an external collaborator
(`import random`); the embedding threads an explicit `PyRandom` source — an
arbitrary stream of naturals plus a cursor — through the generation calls in
the source's exact consumption order (room sampling, per-pair corridor
direction, per-tile decoration roll).  All generator theorems quantify over
the whole stream, hence over every seed.
-/

/-- Symbolic tile identifiers of the generated grid: the dark background
fill the grid starts with, room floor, corridor path, castle landmark and
tree decoration (the source stores the corresponding tile images). -/
inductive GTile where
  | background : GTile
  | floor : GTile
  | path : GTile
  | castle : GTile
  | tree : GTile
deriving DecidableEq

/-- The generated tile grid, indexed `g y x` like the source's
`grid[y][x]` rows-of-columns list. -/
def Grid : Type := Int → Int → GTile

/-- A room rectangle `(x, y, w, h)` as used throughout `test_env.py`. -/
def Rect : Type := Int × Int × Int × Int

/-- A deterministic pseudo-random source: a stream of naturals and a cursor.
Models the single process-wide `random` generator the source consumes. -/
structure PyRandom where
  seq : Nat → Nat
  k : Nat

/-- Draw the next raw value and advance the cursor. -/
def next_raw (r : PyRandom) : Nat × PyRandom :=
  (r.seq r.k, ⟨r.seq, r.k + 1⟩)

/-- `random.randint(lo, hi)`: one draw mapped into `[lo, hi]` (both ends
inclusive; every call site of the source has `lo ≤ hi`). -/
def randint (lo hi : Int) (r : PyRandom) : Int × PyRandom :=
  let n := next_raw r
  (lo + (n.1 : Int) % (hi - lo + 1), n.2)

/-- `random.choice([True, False])`: one draw mapped to a boolean. -/
def choice_bool (r : PyRandom) : Bool × PyRandom :=
  let n := next_raw r
  (decide (n.1 % 2 = 0), n.2)

/-- `random.random() < density`: one draw mapped to a Bernoulli outcome by
reading the draw as a uniform value on a fine grid of `[0, 1)`. -/
def random_lt (density : Rat) (r : PyRandom) : Bool × PyRandom :=
  let n := next_raw r
  (decide (((n.1 % 1000000 : Nat) : Rat) / 1000000 < density), n.2)

/-- `rects_overlap` (test_env.py lines 47-52): padded closed rectangles
overlap unless strictly separated along an axis by more than the padding. -/
def rects_overlap (a b : Rect) (padding : Int) : Bool :=
  let ax2 := a.1 + a.2.2.1 - 1
  let ay2 := a.2.1 + a.2.2.2 - 1
  let bx2 := b.1 + b.2.2.1 - 1
  let by2 := b.2.1 + b.2.2.2 - 1
  !(decide (ax2 + padding < b.1) || decide (bx2 + padding < a.1) ||
    decide (ay2 + padding < b.2.1) || decide (by2 + padding < a.2.1))

/-- `carve_h_corridor` (test_env.py lines 54-56): write `tile` on row `y`
for every column between `x1` and `x2` inclusive. -/
def carve_h_corridor (g : Grid) (x1 x2 y : Int) (t : GTile) : Grid :=
  fun Y X => if Y = y ∧ min x1 x2 ≤ X ∧ X ≤ max x1 x2 then t else g Y X

/-- `carve_v_corridor` (test_env.py lines 58-60): write `tile` on column `x`
for every row between `y1` and `y2` inclusive. -/
def carve_v_corridor (g : Grid) (y1 y2 x : Int) (t : GTile) : Grid :=
  fun Y X => if X = x ∧ min y1 y2 ≤ Y ∧ Y ≤ max y1 y2 then t else g Y X

/-- Room carving (test_env.py lines 75-77): fill the accepted rectangle
with floor tiles. -/
def carve_room (g : Grid) (rm : Rect) : Grid :=
  fun Y X =>
    if rm.2.1 ≤ Y ∧ Y < rm.2.1 + rm.2.2.2 ∧ rm.1 ≤ X ∧ X < rm.1 + rm.2.2.1 then
      GTile.floor
    else g Y X

/-- The room placement loop of `create_rooms_and_corridors` (test_env.py
lines 63-79), on the fixed 48 × 36 map with room sizes 5-12 × 4-9.  Each
iteration draws width, height and an origin inside the 1-tile border, and
accepts the rectangle only when it padded-overlaps no previously accepted
room; `attempts` counts every iteration.  The structural `fuel` argument is
always started at `n_rooms * 12`, an upper bound on the iterations the
`attempts < n_rooms * 12` guard admits, so it never cuts the loop short. -/
def room_loop (n_rooms : Nat) :
    Nat → Grid → List Rect → Nat → PyRandom → Grid × List Rect × PyRandom
  | 0, g, rooms, _, r => (g, rooms, r)
  | fuel + 1, g, rooms, attempts, r =>
    if rooms.length < n_rooms ∧ attempts < n_rooms * 12 then
      let w := randint 5 12 r
      let h := randint 4 9 w.2
      let x := randint 1 (48 - w.1 - 2) h.2
      let y := randint 1 (36 - h.1 - 2) x.2
      let new_rect : Rect := (x.1, y.1, w.1, h.1)
      if rooms.any (fun rm => rects_overlap new_rect rm 1) then
        room_loop n_rooms fuel g rooms (attempts + 1) y.2
      else
        room_loop n_rooms fuel (carve_room g new_rect) (rooms ++ [new_rect]) (attempts + 1) y.2
    else (g, rooms, r)

/-- Center of a room, `(x + w // 2, y + h // 2)` (test_env.py lines 85-86;
all components are non-negative, so `Int` division matches Python `//`). -/
def center (rm : Rect) : Int × Int :=
  (rm.1 + rm.2.2.1 / 2, rm.2.1 + rm.2.2.2 / 2)

/-- The corridor loop of `create_rooms_and_corridors` (test_env.py lines
82-92) over the consecutive pairs of accepted rooms: a 50/50 draw picks
horizontal-then-vertical or vertical-then-horizontal L-carving between the
two centers. -/
def connect_loop : Grid → PyRandom → List (Rect × Rect) → Grid × PyRandom
  | g, r, [] => (g, r)
  | g, r, pr :: rest =>
    let c1 := center pr.1
    let c2 := center pr.2
    let ch := choice_bool r
    let g2 :=
      if ch.1 then
        carve_v_corridor (carve_h_corridor g c1.1 c2.1 c1.2 GTile.path) c1.2 c2.2 c2.1 GTile.path
      else
        carve_h_corridor (carve_v_corridor g c1.2 c2.2 c1.1 GTile.path) c1.1 c2.1 c2.2 GTile.path
    connect_loop g2 ch.2 rest

/-- `create_rooms_and_corridors` (test_env.py lines 62-94): the placement
loop followed by corridor carving between consecutive accepted rooms
(`rooms[i-1]` to `rooms[i]`, i.e. the `zip` with the tail). -/
def create_rooms_and_corridors (n_rooms : Nat) (g : Grid) (r : PyRandom) :
    Grid × List Rect × PyRandom :=
  let rl := room_loop n_rooms (n_rooms * 12) g [] 0 r
  let cl := connect_loop rl.1 rl.2.2 (rl.2.1.zip rl.2.1.tail)
  (cl.1, rl.2.1, cl.2)

/-- `place_castle` (test_env.py lines 96-104): a 4 × 4 castle block at the
given origin, clipped to the 48 × 36 grid. -/
def place_castle (g : Grid) (origin : Int × Int) (t : GTile) : Grid :=
  fun Y X =>
    if origin.1 ≤ X ∧ X < origin.1 + 4 ∧ origin.2 ≤ Y ∧ Y < origin.2 + 4 ∧
       0 ≤ X ∧ X < 48 ∧ 0 ≤ Y ∧ Y < 36 then t
    else g Y X

/-- `add_decorations` (test_env.py lines 106-111): for every tile in row
then column order, an independent draw below `density` overwrites the tile
with a tree. -/
def add_decorations (g : Grid) (density : Rat) (r : PyRandom) : Grid × PyRandom :=
  (List.range 36).foldl
    (fun acc y =>
      (List.range 48).foldl
        (fun acc2 x =>
          let d := random_lt density acc2.2
          (if d.1 then
             (fun Y X => if Y = (y : Int) ∧ X = (x : Int) then GTile.tree else acc2.1 Y X)
           else acc2.1, d.2))
        acc)
    (g, r)

/-- Room area `w * h`, the `key` of the descending sort in `main`
(test_env.py line 168). -/
def area (rm : Rect) : Int :=
  rm.2.2.1 * rm.2.2.2

/-- Castle origin near a room center, `(x + w//2 - 1, y + h//2 - 1)`
(test_env.py lines 172-173). -/
def castle_origin (rm : Rect) : Int × Int :=
  (rm.1 + rm.2.2.1 / 2 - 1, rm.2.1 + rm.2.2.2 / 2 - 1)

/-- The generation pipeline of `main` (test_env.py lines 160-188) from an
explicit random source: background-filled grid, rooms and corridors, castles
in the two largest rooms when at least two exist (`sorted(..., reverse=True)`
is the stable descending merge sort; indexing its first two elements is the
two-head match since sorting preserves length), tree decorations at density
0.02, and spawn points at the centers of the first six accepted rooms. -/
def generate_map_with (n_rooms : Nat) (r : PyRandom) :
    Grid × List Rect × List (Int × Int) :=
  let g0 : Grid := fun _ _ => GTile.background
  let rc := create_rooms_and_corridors n_rooms g0 r
  let g2 :=
    match rc.2.1.mergeSort (fun a b => decide (area b ≤ area a)) with
    | a :: b :: _ =>
      place_castle (place_castle rc.1 (castle_origin a) GTile.castle) (castle_origin b) GTile.castle
    | _ => rc.1
  let dec := add_decorations g2 (2 / 100) rc.2.2
  (dec.1, rc.2.1, (rc.2.1.take 6).map center)

/-- Modelled from the spec: the deterministic pseudo-random stream obtained
by seeding the process-wide generator (`random.seed(SEED)`, test_env.py
lines 128-129).  The Mersenne Twister itself lives in the external `random`
module, so the spec's requirement — a single deterministic source fully
determined by `rngSeed` — is modelled by a concrete seeded stream. -/
def seed_stream (seed : Nat) : Nat → Nat :=
  fun k => (seed * 1103515245 + k * 12345 + 12345) % 2 ^ 31

/-- `main`'s generation run (test_env.py lines 127-188) for a given seed,
with the configured `N_ROOMS = 12`. -/
def generate_map (seed : Nat) : Grid × List Rect × List (Int × Int) :=
  generate_map_with 12 ⟨seed_stream seed, 0⟩

/-- Modelled from the spec: the wall classification of generated tiles.
`test_env.py` itself never classifies tiles (it only draws them); the spec
declares the background "empty/unwalkable", floor and path walkable, castle
landmarks goal tiles (always enterable) and decorations a non-blocking
cosmetic layer, so the untouched background is the only blocking class. -/
def non_wall (t : GTile) : Prop :=
  t ≠ GTile.background

/-- One king-free grid move: two orthogonally adjacent coordinates, both on
non-wall tiles. -/
def adj (g : Grid) (p q : Int × Int) : Prop :=
  non_wall (g p.2 p.1) ∧ non_wall (g q.2 q.1) ∧
    (p.1 - q.1).natAbs + (p.2 - q.2).natAbs = 1

/-- Reachability through non-wall tiles: the reflexive-transitive closure of
single grid moves. -/
def reachable (g : Grid) (p q : Int × Int) : Prop :=
  Relation.ReflTransGen (adj g) p q

/-- Pointwise monotonicity between grids: every non-wall tile stays
non-wall.  All carving phases only ever write non-background tiles, so each
phase relates its input to its output this way. -/
def preserves_open (g g2 : Grid) : Prop :=
  ∀ y x, non_wall (g y x) → non_wall (g2 y x)

/-- A concrete witness stream: four initial zero draws then constant 30,
chosen so that the placement loop accepts exactly the rooms
`(1, 1, 5, 4)` and `(31, 1, 11, 4)`. -/
def witness_stream : Nat → Nat :=
  fun k => if k ≤ 3 then 0 else 30

/-- The witness generation run: two requested rooms on the witness stream. -/
def witness_gen : Grid × List Rect × List (Int × Int) :=
  generate_map_with 2 ⟨witness_stream, 0⟩

/-!
Helper lemmas about the victory check and the step branches.
-/

/-- Evaluation of the victory check when the current position is in bounds:
the lookup succeeds and the reward is overridden exactly on a goal tile. -/
theorem goal_outcome_eval (e : MapEnv) (r : Rat) (hpos : pos_in_bounds e e.player_pos) :
    goal_outcome e r =
      some (if goal_at e e.player_pos = 255 then ((100 : Rat), true) else (r, false)) := by
  obtain ⟨h1, h2, h3, h4⟩ := hpos
  unfold goal_outcome npIndex goal_at
  rw [if_pos ⟨by omega, h2, by omega, h4⟩, if_neg (not_lt.2 h1), if_neg (not_lt.2 h3)]
  rfl

/-- The victory check on a non-goal in-bounds tile returns the shaping
reward and no termination. -/
theorem goal_outcome_of_not_goal (e : MapEnv) (r : Rat)
    (hpos : pos_in_bounds e e.player_pos) (hng : goal_at e e.player_pos ≠ 255) :
    goal_outcome e r = some (r, false) := by
  rw [goal_outcome_eval e r hpos, if_neg hng]

/-- The victory check never raises from an in-bounds position. -/
theorem goal_outcome_isSome (e : MapEnv) (r : Rat) (hpos : pos_in_bounds e e.player_pos) :
    (goal_outcome e r).isSome := by
  rw [goal_outcome_eval e r hpos]
  rfl

/-- Claim C9: calling `reset` twice in a row yields identical observations
and an identical cached nearest-goal distance — `reset` is idempotent. -/
theorem claim9_reset_idempotent (e : MapEnv) :
    observation (reset (reset e)) = observation (reset e) ∧
    (reset (reset e)).last_distance = (reset e).last_distance :=
  ⟨rfl, rfl⟩

/-- Claim C1 counterexample: calling `step` with the out-of-range action 4
does not signal an invalid-input error — it returns normally (the source's
`if/elif` chain has no `else`), scoring the ordinary `-0.5` shaping penalty
with the player position unchanged. -/
theorem claim1_no_error_counterexample :
    (step envNoGoal 4).2 = some (-1/2, false) ∧
    (step envNoGoal 4).1.player_pos = envNoGoal.player_pos := by
  constructor
  · simp only [step, candidate, envNoGoal, pos_in_bounds, wall_at, goal_outcome, npIndex,
      get_distance_to_nearest_enemy, dist_lt, goal_at]
    norm_num
  · decide

/-- Claim C1 (amended): an action outside `{0, 1, 2, 3}` is treated as a
silent no-op candidate — `step` returns normally (no error) and the agent
position is unchanged. -/
theorem claim1_invalid_action_noop (e : MapEnv) (a : Int)
    (hpos : pos_in_bounds e e.player_pos)
    (ha : ¬(a = 0 ∨ a = 1 ∨ a = 2 ∨ a = 3)) :
    (step e a).1.player_pos = e.player_pos ∧ ((step e a).2).isSome := by
  push_neg at ha
  obtain ⟨h0, h1, h2, h3⟩ := ha
  have hc : candidate e.player_pos a = e.player_pos := by
    unfold candidate
    rw [if_neg h0, if_neg h1, if_neg h2, if_neg h3]
  simp only [step, hc]
  rw [if_neg (not_not_intro hpos)]
  by_cases hw : wall_at e e.player_pos = 1
  · rw [if_pos hw]
    exact ⟨rfl, goal_outcome_isSome e _ hpos⟩
  · rw [if_neg hw]
    refine ⟨rfl, ?_⟩
    exact goal_outcome_isSome _ _ hpos

/-- Claim C1 witness: the amended no-op behaviour at the concrete
environment `envNoGoal` and action 5. -/
theorem claim1_invalid_action_noop_witness :
    pos_in_bounds envNoGoal envNoGoal.player_pos ∧
    ¬((5 : Int) = 0 ∨ (5 : Int) = 1 ∨ (5 : Int) = 2 ∨ (5 : Int) = 3) ∧
    ((step envNoGoal 5).1.player_pos = envNoGoal.player_pos ∧ ((step envNoGoal 5).2).isSome) := by
  have hp : pos_in_bounds envNoGoal envNoGoal.player_pos := by decide
  have ha : ¬((5 : Int) = 0 ∨ (5 : Int) = 1 ∨ (5 : Int) = 2 ∨ (5 : Int) = 3) := by decide
  exact ⟨hp, ha, claim1_invalid_action_noop envNoGoal 5 hp ha⟩

/-- Claim C4 counterexample: in the 1 × 1 environment whose only tile is a
goal tile, the candidate for action 0 is out of bounds, yet `step` returns
reward 100 with `terminated = true` (the victory check runs on the unchanged
current position) instead of the claimed `-5` and `terminated = false`. -/
theorem claim4_blocked_move_counterexample :
    ¬ pos_in_bounds envOnGoal (candidate envOnGoal.player_pos 0) ∧
    (step envOnGoal 0).2 = some (100, true) ∧
    (step envOnGoal 0).1.player_pos = envOnGoal.player_pos := by
  refine ⟨by decide, ?_, by decide⟩
  simp only [step, candidate, envOnGoal, pos_in_bounds, wall_at, goal_outcome, npIndex,
    get_distance_to_nearest_enemy, dist_lt, goal_at]
  norm_num

/-- Claim C4 (amended): whenever the candidate coordinate is out of bounds
or a wall tile, and additionally the agent's current tile is not itself a
goal tile, `step` returns the fixed `-5` penalty, leaves the whole state —
agent position and cached last-distance included — unchanged, and does not
terminate.  (Without the extra proviso the victory check can fire on the
unchanged position, as the counterexample shows.) -/
theorem claim4_blocked_move (e : MapEnv) (a : Int)
    (hpos : pos_in_bounds e e.player_pos)
    (hng : goal_at e e.player_pos ≠ 255)
    (hblocked : ¬ pos_in_bounds e (candidate e.player_pos a) ∨
      wall_at e (candidate e.player_pos a) = 1) :
    (step e a).1 = e ∧ (step e a).2 = some (-5, false) := by
  have hout : goal_outcome e (-5) = some (-5, false) :=
    goal_outcome_of_not_goal e (-5) hpos hng
  simp only [step]
  by_cases hin : pos_in_bounds e (candidate e.player_pos a)
  · have hw : wall_at e (candidate e.player_pos a) = 1 :=
      hblocked.resolve_left (not_not_intro hin)
    rw [if_neg (not_not_intro hin), if_pos hw]
    exact ⟨rfl, hout⟩
  · rw [if_pos hin]
    exact ⟨rfl, hout⟩

/-- Claim C4 witness: the amended blocked-move behaviour at `envNoGoal`
with action 0, whose candidate leaves the 1 × 1 grid. -/
theorem claim4_blocked_move_witness :
    pos_in_bounds envNoGoal envNoGoal.player_pos ∧
    goal_at envNoGoal envNoGoal.player_pos ≠ 255 ∧
    (¬ pos_in_bounds envNoGoal (candidate envNoGoal.player_pos 0) ∨
      wall_at envNoGoal (candidate envNoGoal.player_pos 0) = 1) ∧
    ((step envNoGoal 0).1 = envNoGoal ∧ (step envNoGoal 0).2 = some (-5, false)) := by
  have h1 : pos_in_bounds envNoGoal envNoGoal.player_pos := by decide
  have h2 : goal_at envNoGoal envNoGoal.player_pos ≠ 255 := by decide
  have h3 : ¬ pos_in_bounds envNoGoal (candidate envNoGoal.player_pos 0) ∨
      wall_at envNoGoal (candidate envNoGoal.player_pos 0) = 1 := Or.inl (by decide)
  exact ⟨h1, h2, h3, claim4_blocked_move envNoGoal 0 h1 h2 h3⟩

/-- Claim C2: for every action in `{0, 1, 2, 3}` the candidate moves exactly
one tile along one axis (0 up, 1 down, 2 left, 3 right), and the position
after `step` is the candidate exactly when it is in bounds and not a wall,
otherwise unchanged. -/
theorem claim2_step_movement (e : MapEnv) (a : Int)
    (ha : a = 0 ∨ a = 1 ∨ a = 2 ∨ a = 3) :
    (candidate e.player_pos 0 = (e.player_pos.1, e.player_pos.2 - 1) ∧
     candidate e.player_pos 1 = (e.player_pos.1, e.player_pos.2 + 1) ∧
     candidate e.player_pos 2 = (e.player_pos.1 - 1, e.player_pos.2) ∧
     candidate e.player_pos 3 = (e.player_pos.1 + 1, e.player_pos.2)) ∧
    (step e a).1.player_pos =
      (if pos_in_bounds e (candidate e.player_pos a) ∧
          wall_at e (candidate e.player_pos a) ≠ 1
       then candidate e.player_pos a else e.player_pos) := by
  constructor
  · refine ⟨?_, ?_, ?_, ?_⟩ <;> simp [candidate]
  · simp only [step]
    by_cases hin : pos_in_bounds e (candidate e.player_pos a)
    · by_cases hw : wall_at e (candidate e.player_pos a) = 1
      · simp [hin, hw]
      · simp [hin, hw]
    · simp [hin]

/-- Claim C2 witness: the movement contract at `envTwo` with action 2
(a successful move one tile to the left). -/
theorem claim2_step_movement_witness :
    ((2 : Int) = 0 ∨ (2 : Int) = 1 ∨ (2 : Int) = 2 ∨ (2 : Int) = 3) ∧
    ((candidate envTwo.player_pos 0 = (envTwo.player_pos.1, envTwo.player_pos.2 - 1) ∧
      candidate envTwo.player_pos 1 = (envTwo.player_pos.1, envTwo.player_pos.2 + 1) ∧
      candidate envTwo.player_pos 2 = (envTwo.player_pos.1 - 1, envTwo.player_pos.2) ∧
      candidate envTwo.player_pos 3 = (envTwo.player_pos.1 + 1, envTwo.player_pos.2)) ∧
     (step envTwo 2).1.player_pos =
       (if pos_in_bounds envTwo (candidate envTwo.player_pos 2) ∧
           wall_at envTwo (candidate envTwo.player_pos 2) ≠ 1
        then candidate envTwo.player_pos 2 else envTwo.player_pos)) := by
  have ha : (2 : Int) = 0 ∨ (2 : Int) = 1 ∨ (2 : Int) = 2 ∨ (2 : Int) = 3 := by decide
  exact ⟨ha, claim2_step_movement envTwo 2 ha⟩

/-- Claim C3: on every successful move (in-bounds, non-wall candidate), the
reward is the positive shaping value `1` exactly when the nearest-goal
distance strictly decreased below the cached distance, otherwise the
negative penalty `-0.5` of strictly smaller magnitude than the positive
value — except that landing on a goal tile overrides the reward with the
fixed victory value `100` and terminates the episode. -/
theorem claim3_reward_shaping (e : MapEnv) (a : Int)
    (hin : pos_in_bounds e (candidate e.player_pos a))
    (hw : wall_at e (candidate e.player_pos a) ≠ 1) :
    (goal_at e (candidate e.player_pos a) = 255 →
      (step e a).2 = some (100, true)) ∧
    (goal_at e (candidate e.player_pos a) ≠ 255 →
      (dist_lt (get_distance_to_nearest_enemy (candidate e.player_pos a) e.enemy_locations)
          e.last_distance = true →
        (step e a).2 = some (1, false) ∧ (0 : Rat) < 1) ∧
      (dist_lt (get_distance_to_nearest_enemy (candidate e.player_pos a) e.enemy_locations)
          e.last_distance = false →
        (step e a).2 = some (-1/2, false) ∧ (-1/2 : Rat) < 0 ∧ -(-1/2 : Rat) < (1 : Rat))) := by
  simp only [step]
  rw [if_neg (not_not_intro hin), if_neg hw]
  rw [goal_outcome_eval
    { e with player_pos := candidate e.player_pos a
             last_distance := get_distance_to_nearest_enemy (candidate e.player_pos a) e.enemy_locations }
    _ hin]
  dsimp only [goal_at]
  constructor
  · intro hg
    rw [if_pos hg]
  · intro hg
    constructor
    · intro hd
      rw [if_neg hg, hd]
      norm_num
    · intro hd
      rw [if_neg hg, hd]
      norm_num

/-- Claim C3 witness: the reward contract at `envTwo` with action 2, a
successful move onto the enemy location (distance drops from 1 to 0). -/
theorem claim3_reward_shaping_witness :
    pos_in_bounds envTwo (candidate envTwo.player_pos 2) ∧
    wall_at envTwo (candidate envTwo.player_pos 2) ≠ 1 ∧
    ((goal_at envTwo (candidate envTwo.player_pos 2) = 255 →
      (step envTwo 2).2 = some (100, true)) ∧
     (goal_at envTwo (candidate envTwo.player_pos 2) ≠ 255 →
      (dist_lt (get_distance_to_nearest_enemy (candidate envTwo.player_pos 2) envTwo.enemy_locations)
          envTwo.last_distance = true →
        (step envTwo 2).2 = some (1, false) ∧ (0 : Rat) < 1) ∧
      (dist_lt (get_distance_to_nearest_enemy (candidate envTwo.player_pos 2) envTwo.enemy_locations)
          envTwo.last_distance = false →
        (step envTwo 2).2 = some (-1/2, false) ∧ (-1/2 : Rat) < 0 ∧ -(-1/2 : Rat) < (1 : Rat)))) := by
  have h1 : pos_in_bounds envTwo (candidate envTwo.player_pos 2) := by decide
  have h2 : wall_at envTwo (candidate envTwo.player_pos 2) ≠ 1 := by decide
  exact ⟨h1, h2, claim3_reward_shaping envTwo 2 h1 h2⟩

/-- Invariant of the matrix-derivation fold: as long as the remaining tile
entries never touch a coordinate whose goal bit is already set, every
goal-marked cell keeps a zero wall bit.  The membership conjunct threads the
no-later-touch promise through the induction. -/
theorem build_matrices_inv (wk eg : List Nat) :
    ∀ (ts : List (Nat × Nat × Nat)) (m : Mats),
      (ts.map (fun t => (t.1, t.2.1))).Nodup →
      (∀ x y, m.goal y x ≠ 0 → m.wall y x = 0 ∧ (x, y) ∉ ts.map (fun t => (t.1, t.2.1))) →
      ∀ x y, (ts.foldl (apply_tile wk eg) m).goal y x ≠ 0 →
        (ts.foldl (apply_tile wk eg) m).wall y x = 0 := by
  intro ts
  induction ts with
  | nil =>
    intro m _ hinv x y hg
    exact (hinv x y hg).1
  | cons t ts ih =>
    intro m hnd hinv x y hg
    simp only [List.map_cons, List.nodup_cons] at hnd
    obtain ⟨hnotin, hnd2⟩ := hnd
    rw [List.foldl_cons] at hg ⊢
    refine ih (apply_tile wk eg m t) hnd2 ?_ x y hg
    intro x2 y2 hg2
    unfold apply_tile set_at at hg2 ⊢
    by_cases h1 : t.2.2 ∈ wk
    · rw [if_pos h1] at hg2 ⊢
      dsimp only at hg2 ⊢
      obtain ⟨hww, hni⟩ := hinv x2 y2 hg2
      constructor
      · split
        · rfl
        · exact hww
      · intro hmem
        exact hni (by simp [hmem])
    · rw [if_neg h1] at hg2 ⊢
      by_cases h2 : t.2.2 ∈ eg
      · rw [if_pos h2] at hg2 ⊢
        dsimp only at hg2 ⊢
        by_cases hc : y2 = t.2.1 ∧ x2 = t.1
        · constructor
          · rw [if_pos hc]
          · have hEq : (x2, y2) = (t.1, t.2.1) := by rw [hc.1, hc.2]
            rw [hEq]
            exact hnotin
        · have hg3 : m.goal y2 x2 ≠ 0 := by
            rwa [if_neg hc] at hg2
          obtain ⟨hww, hni⟩ := hinv x2 y2 hg3
          constructor
          · split
            · rfl
            · exact hww
          · intro hmem
            exact hni (by simp [hmem])
      · rw [if_neg h2] at hg2 ⊢
        dsimp only at hg2 ⊢
        obtain ⟨hww, hni⟩ := hinv x2 y2 hg2
        have hne : (x2, y2) ≠ (t.1, t.2.1) := by
          intro hEq
          exact hni (by simp [hEq])
        constructor
        · rw [if_neg ?_]
          · exact hww
          · intro hc
            exact hne (by rw [hc.1, hc.2])
        · intro hmem
          exact hni (by simp [hmem])

/-- Claim C5 counterexample: when the visible layers list a coordinate
twice — here an enemy gid 2 followed by an unrecognized gid 7 at `(0, 0)`,
as two stacked tile layers produce — derivation leaves the goal bit set
while the later entry re-marks the cell as a wall: the claimed invariant
fails. -/
theorem claim5_goal_wall_counterexample :
    (build_matrices [1] [2] [(0, 0, 2), (0, 0, 7)]).goal 0 0 = 255 ∧
    (build_matrices [1] [2] [(0, 0, 2), (0, 0, 7)]).wall 0 0 = 1 := by
  constructor <;> rfl

/-- Claim C5 (amended): provided no coordinate is listed twice across the
visible tile layers (in particular for any single-layer map), every cell
whose goal bit is 255 after derivation has wall bit 0 — goal tiles are
enterable. -/
theorem claim5_goal_not_wall (wk eg : List Nat) (tiles : List (Nat × Nat × Nat)) (x y : Nat)
    (hnodup : (tiles.map (fun t => (t.1, t.2.1))).Nodup)
    (hg : (build_matrices wk eg tiles).goal y x = 255) :
    (build_matrices wk eg tiles).wall y x = 0 := by
  refine build_matrices_inv wk eg tiles ⟨fun _ _ => 1, fun _ _ => 0, []⟩ hnodup ?_ x y ?_
  · intro x2 y2 h
    exact absurd rfl h
  · unfold build_matrices at hg
    rw [hg]
    decide

/-- Claim C5 witness: a two-entry single-visit tile stream — an enemy gid
at `(0, 0)` and an unrecognized gid at `(1, 0)` — where the derived goal
tile is indeed non-wall. -/
theorem claim5_goal_not_wall_witness :
    (([(0, 0, 2), (1, 0, 7)] : List (Nat × Nat × Nat)).map (fun t => (t.1, t.2.1))).Nodup ∧
    (build_matrices [1] [2] [(0, 0, 2), (1, 0, 7)]).goal 0 0 = 255 ∧
    (build_matrices [1] [2] [(0, 0, 2), (1, 0, 7)]).wall 0 0 = 0 := by
  have h1 : (([(0, 0, 2), (1, 0, 7)] : List (Nat × Nat × Nat)).map (fun t => (t.1, t.2.1))).Nodup := by
    decide
  have h2 : (build_matrices [1] [2] [(0, 0, 2), (1, 0, 7)]).goal 0 0 = 255 := by rfl
  exact ⟨h1, h2, claim5_goal_not_wall [1] [2] [(0, 0, 2), (1, 0, 7)] 0 0 h1 h2⟩

/-- A `step` call never changes the map dimensions or the configured start
tile. -/
theorem step_fields (e : MapEnv) (a : Int) :
    (step e a).1.map_width = e.map_width ∧ (step e a).1.map_height = e.map_height ∧
    (step e a).1.start_pos = e.start_pos := by
  simp only [step]
  split
  · exact ⟨rfl, rfl, rfl⟩
  · split
    · exact ⟨rfl, rfl, rfl⟩
    · exact ⟨rfl, rfl, rfl⟩

/-- A `step` from an in-bounds position lands in bounds: blocked branches
keep the position and the success branch passed the bounds check. -/
theorem step_pos_bounds (e : MapEnv) (a : Int) (h : pos_in_bounds e e.player_pos) :
    pos_in_bounds (step e a).1 (step e a).1.player_pos := by
  simp only [step]
  split
  · exact h
  · split
    · exact h
    · rename_i hnn _
      exact not_not.mp hnn

/-- A `step` from an in-bounds position returns normally: every matrix
lookup it performs — the guarded wall read and the unguarded victory read —
uses in-range indices. -/
theorem step_snd_isSome (e : MapEnv) (a : Int) (h : pos_in_bounds e e.player_pos) :
    ((step e a).2).isSome := by
  simp only [step]
  split
  · exact goal_outcome_isSome e _ h
  · split
    · exact goal_outcome_isSome e _ h
    · rename_i hnn _
      exact goal_outcome_isSome _ _ (not_not.mp hnn)

/-- Neither `reset` nor `step` changes dimensions or start tile. -/
theorem apply_op_fields (e : MapEnv) (op : EnvOp) :
    (apply_op e op).map_width = e.map_width ∧ (apply_op e op).map_height = e.map_height ∧
    (apply_op e op).start_pos = e.start_pos := by
  cases op with
  | opReset => exact ⟨rfl, rfl, rfl⟩
  | opStep a => exact step_fields e a

/-- One call preserves the in-bounds invariant for both the player position
and the start tile. -/
theorem apply_op_bounds (e : MapEnv) (op : EnvOp)
    (hs : pos_in_bounds e e.start_pos) (hp : pos_in_bounds e e.player_pos) :
    pos_in_bounds (apply_op e op) (apply_op e op).player_pos ∧
    pos_in_bounds (apply_op e op) (apply_op e op).start_pos := by
  cases op with
  | opReset => exact ⟨hs, hs⟩
  | opStep a =>
    simp only [apply_op]
    refine ⟨step_pos_bounds e a hp, ?_⟩
    have hf := step_fields e a
    unfold pos_in_bounds at hs ⊢
    rw [hf.1, hf.2.1, hf.2.2]
    exact hs

/-- The in-bounds invariant holds after any sequence of calls. -/
theorem run_ops_bounds (ops : List EnvOp) :
    ∀ e : MapEnv, pos_in_bounds e e.start_pos → pos_in_bounds e e.player_pos →
      pos_in_bounds (run_ops e ops) (run_ops e ops).player_pos ∧
      pos_in_bounds (run_ops e ops) (run_ops e ops).start_pos := by
  induction ops with
  | nil =>
    intro e hs hp
    exact ⟨hp, hs⟩
  | cons op ops ih =>
    intro e hs hp
    have hb := apply_op_bounds e op hs hp
    exact ih (apply_op e op) hb.2 hb.1

/-- Claim C10: when the configured start tile (and initial position) lie
inside `[0, width) × [0, height)`, the agent position stays in bounds after
any sequence of `reset` and `step` calls, and consequently every wall- and
goal-matrix lookup a further `step` performs uses in-range indices (the call
returns `some`, i.e. no `IndexError`). -/
theorem claim10_position_in_bounds (e : MapEnv) (ops : List EnvOp) (a : Int)
    (h1 : pos_in_bounds e e.start_pos) (h2 : pos_in_bounds e e.player_pos) :
    pos_in_bounds (run_ops e ops) (run_ops e ops).player_pos ∧
    ((step (run_ops e ops) a).2).isSome := by
  have hb := run_ops_bounds ops e h1 h2
  exact ⟨hb.1, step_snd_isSome _ a hb.1⟩

/-- Claim C10 witness: a concrete call sequence (a successful move, a
reset, a blocked move, an out-of-range action) on `envTwo`. -/
theorem claim10_position_in_bounds_witness :
    pos_in_bounds envTwo envTwo.start_pos ∧ pos_in_bounds envTwo envTwo.player_pos ∧
    (pos_in_bounds
        (run_ops envTwo [EnvOp.opStep 2, EnvOp.opReset, EnvOp.opStep 0, EnvOp.opStep 9])
        (run_ops envTwo [EnvOp.opStep 2, EnvOp.opReset, EnvOp.opStep 0, EnvOp.opStep 9]).player_pos ∧
      ((step (run_ops envTwo [EnvOp.opStep 2, EnvOp.opReset, EnvOp.opStep 0, EnvOp.opStep 9]) 5).2).isSome) := by
  have h1 : pos_in_bounds envTwo envTwo.start_pos := by decide
  have h2 : pos_in_bounds envTwo envTwo.player_pos := by decide
  exact ⟨h1, h2,
    claim10_position_in_bounds envTwo [EnvOp.opStep 2, EnvOp.opReset, EnvOp.opStep 0, EnvOp.opStep 9] 5 h1 h2⟩

/-- The padded-overlap test of `rects_overlap` is symmetric. -/
theorem rects_overlap_symm (a b : Rect) (p : Int) :
    rects_overlap a b p = rects_overlap b a p := by
  have hcomm : ∀ (p1 q1 u v : Bool), (p1 || q1 || u || v) = (q1 || p1 || v || u) := by decide
  simp only [rects_overlap]
  rw [hcomm]

/-- Invariant of the placement loop: pairwise padded non-overlap of the
accepted rooms is preserved, because a candidate is only appended after the
`any`-overlap check against every previously accepted room comes back
false. -/
theorem room_loop_pairwise (n_rooms : Nat) :
    ∀ (fuel : Nat) (g : Grid) (rooms : List Rect) (attempts : Nat) (r : PyRandom),
      rooms.Pairwise (fun a b => rects_overlap a b 1 = false) →
      (room_loop n_rooms fuel g rooms attempts r).2.1.Pairwise
        (fun a b => rects_overlap a b 1 = false) := by
  intro fuel
  induction fuel with
  | zero =>
    intro g rooms attempts r h
    exact h
  | succ fuel ih =>
    intro g rooms attempts r h
    simp only [room_loop]
    split
    · split
      · exact ih _ _ _ _ h
      · rename_i hcond hany
        refine ih _ _ _ _ ?_
        rw [List.pairwise_append]
        refine ⟨h, List.pairwise_singleton _ _, ?_⟩
        intro u hu v hv
        rw [List.mem_singleton] at hv
        subst hv
        have hall := List.any_eq_false.mp (Bool.of_not_eq_true hany)
        rw [rects_overlap_symm]
        exact Bool.eq_false_iff.mpr (hall u hu)
    · exact h

/-- Claim C6: for every random stream (hence every seed) and every requested
room count, the accepted room list is pairwise non-overlapping even with
each rectangle extended by the 1-tile padding buffer. -/
theorem claim6_rooms_disjoint (n_rooms : Nat) (g : Grid) (r : PyRandom) :
    (create_rooms_and_corridors n_rooms g r).2.1.Pairwise
      (fun a b => rects_overlap a b 1 = false) := by
  unfold create_rooms_and_corridors
  dsimp only
  exact room_loop_pairwise n_rooms _ _ _ _ _ List.Pairwise.nil

/-- Claim C8: two generation runs with identical seed and identical
requested room count produce identical tile grids, identical room lists and
identical spawn points — generation consumes a single deterministic source
fully determined by the seed. -/
theorem claim8_generation_deterministic (n1 n2 s1 s2 : Nat)
    (hn : n1 = n2) (hs : s1 = s2) :
    generate_map_with n1 ⟨seed_stream s1, 0⟩ = generate_map_with n2 ⟨seed_stream s2, 0⟩ := by
  rw [hn, hs]

/-- Claim C8 witness: the configured run (`N_ROOMS = 12`, `SEED = 42`)
repeated twice. -/
theorem claim8_generation_deterministic_witness :
    (12 : Nat) = 12 ∧ (42 : Nat) = 42 ∧
    generate_map_with 12 ⟨seed_stream 42, 0⟩ = generate_map_with 12 ⟨seed_stream 42, 0⟩ :=
  ⟨rfl, rfl, claim8_generation_deterministic 12 12 42 42 rfl rfl⟩

/-!
Connectivity of the generated dungeon (claim C7): grid moves through
non-wall tiles, monotonicity under carving, straight-segment reachability,
L-corridor reachability, and the corridor-loop invariant.
-/

/-- Orthogonal adjacency through non-wall tiles is symmetric. -/
theorem adj_symm (g : Grid) (p q : Int × Int) (h : adj g p q) : adj g q p :=
  ⟨h.2.1, h.1, by have h3 := h.2.2; omega⟩

/-- Reachability through non-wall tiles is symmetric. -/
theorem reachable_symm {g : Grid} {p q : Int × Int} (h : reachable g p q) : reachable g q p :=
  Relation.ReflTransGen.symmetric (fun a b hab => adj_symm g a b hab) h

/-- Reachability is monotone under pointwise opening of tiles. -/
theorem reachable_mono {g g2 : Grid} (h : preserves_open g g2) {p q : Int × Int} :
    reachable g p q → reachable g2 p q :=
  Relation.ReflTransGen.mono (fun a b hab => ⟨h _ _ hab.1, h _ _ hab.2.1, hab.2.2⟩)

/-- Openness preservation is reflexive. -/
theorem preserves_open_rfl (g : Grid) : preserves_open g g := fun _ _ h => h

/-- Openness preservation is transitive. -/
theorem preserves_open_trans {a b c : Grid} (h1 : preserves_open a b) (h2 : preserves_open b c) :
    preserves_open a c := fun y x h => h2 y x (h1 y x h)

/-- Walking right along a row of non-wall tiles. -/
theorem reach_right (g : Grid) (y : Int) :
    ∀ (n : Nat) (a : Int), (∀ X, a ≤ X → X ≤ a + n → non_wall (g y X)) →
      reachable g (a, y) (a + n, y) := by
  intro n
  induction n with
  | zero =>
    intro a h
    simp only [Nat.cast_zero, add_zero]
    exact Relation.ReflTransGen.refl
  | succ n ih =>
    intro a h
    have hs : adj g (a, y) (a + 1, y) := by
      refine ⟨h a le_rfl (by push_cast; omega), h (a + 1) (by omega) (by push_cast; omega), ?_⟩
      have h1 : a - (a + 1) = -1 := by ring
      rw [h1, sub_self]
      rfl
    refine Relation.ReflTransGen.head hs ?_
    have h2 : ∀ X, a + 1 ≤ X → X ≤ (a + 1) + (n : Int) → non_wall (g y X) := by
      intro X hx1 hx2
      exact h X (by omega) (by push_cast; omega)
    have hr := ih (a + 1) h2
    have heq : (a + 1) + (n : Int) = a + ((n : Nat) + 1 : Nat) := by push_cast; ring
    rwa [heq] at hr

/-- Horizontal reachability, ordered endpoints. -/
theorem reach_h_le (g : Grid) (y x1 x2 : Int) (hle : x1 ≤ x2)
    (h : ∀ X, x1 ≤ X → X ≤ x2 → non_wall (g y X)) : reachable g (x1, y) (x2, y) := by
  have hn : x2 = x1 + (((x2 - x1).toNat : Nat) : Int) := by omega
  rw [hn]
  refine reach_right g y (x2 - x1).toNat x1 ?_
  intro X h1 h2
  exact h X h1 (by omega)

/-- Endpoint reachability along any non-wall horizontal segment. -/
theorem reach_h (g : Grid) (y x1 x2 : Int)
    (h : ∀ X, min x1 x2 ≤ X → X ≤ max x1 x2 → non_wall (g y X)) :
    reachable g (x1, y) (x2, y) := by
  rcases le_total x1 x2 with hle | hle
  · rw [min_eq_left hle, max_eq_right hle] at h
    exact reach_h_le g y x1 x2 hle h
  · rw [min_eq_right hle, max_eq_left hle] at h
    exact reachable_symm (reach_h_le g y x2 x1 hle h)

/-- Walking down along a column of non-wall tiles. -/
theorem reach_down (g : Grid) (x : Int) :
    ∀ (n : Nat) (a : Int), (∀ Y, a ≤ Y → Y ≤ a + n → non_wall (g Y x)) →
      reachable g (x, a) (x, a + n) := by
  intro n
  induction n with
  | zero =>
    intro a h
    simp only [Nat.cast_zero, add_zero]
    exact Relation.ReflTransGen.refl
  | succ n ih =>
    intro a h
    have hs : adj g (x, a) (x, a + 1) := by
      refine ⟨h a le_rfl (by push_cast; omega), h (a + 1) (by omega) (by push_cast; omega), ?_⟩
      have h1 : a - (a + 1) = -1 := by ring
      rw [h1, sub_self]
      rfl
    refine Relation.ReflTransGen.head hs ?_
    have h2 : ∀ Y, a + 1 ≤ Y → Y ≤ (a + 1) + (n : Int) → non_wall (g Y x) := by
      intro Y hy1 hy2
      exact h Y (by omega) (by push_cast; omega)
    have hr := ih (a + 1) h2
    have heq : (a + 1) + (n : Int) = a + ((n : Nat) + 1 : Nat) := by push_cast; ring
    rwa [heq] at hr

/-- Vertical reachability, ordered endpoints. -/
theorem reach_v_le (g : Grid) (x y1 y2 : Int) (hle : y1 ≤ y2)
    (h : ∀ Y, y1 ≤ Y → Y ≤ y2 → non_wall (g Y x)) : reachable g (x, y1) (x, y2) := by
  have hn : y2 = y1 + (((y2 - y1).toNat : Nat) : Int) := by omega
  rw [hn]
  refine reach_down g x (y2 - y1).toNat y1 ?_
  intro Y h1 h2
  exact h Y h1 (by omega)

/-- Endpoint reachability along any non-wall vertical segment. -/
theorem reach_v (g : Grid) (x y1 y2 : Int)
    (h : ∀ Y, min y1 y2 ≤ Y → Y ≤ max y1 y2 → non_wall (g Y x)) :
    reachable g (x, y1) (x, y2) := by
  rcases le_total y1 y2 with hle | hle
  · rw [min_eq_left hle, max_eq_right hle] at h
    exact reach_v_le g x y1 y2 hle h
  · rw [min_eq_right hle, max_eq_left hle] at h
    exact reachable_symm (reach_v_le g x y2 y1 hle h)

/-- Horizontal carving writes a non-wall tile, so it opens tiles only. -/
theorem carve_h_preserves (g : Grid) (x1 x2 y : Int) (t : GTile) (ht : non_wall t) :
    preserves_open g (carve_h_corridor g x1 x2 y t) := by
  intro Y X h
  unfold carve_h_corridor
  split
  · exact ht
  · exact h

/-- Vertical carving writes a non-wall tile, so it opens tiles only. -/
theorem carve_v_preserves (g : Grid) (y1 y2 x : Int) (t : GTile) (ht : non_wall t) :
    preserves_open g (carve_v_corridor g y1 y2 x t) := by
  intro Y X h
  unfold carve_v_corridor
  split
  · exact ht
  · exact h

/-- Room carving writes floor tiles, so it opens tiles only. -/
theorem carve_room_preserves (g : Grid) (rm : Rect) :
    preserves_open g (carve_room g rm) := by
  intro Y X h
  unfold carve_room
  split
  · exact (by unfold non_wall; decide : non_wall GTile.floor)
  · exact h

/-- Castle placement writes castle tiles, so it opens tiles only. -/
theorem place_castle_preserves (g : Grid) (origin : Int × Int) :
    preserves_open g (place_castle g origin GTile.castle) := by
  intro Y X h
  unfold place_castle
  split
  · exact (by unfold non_wall; decide : non_wall GTile.castle)
  · exact h

/-- A fold whose every step opens tiles only opens tiles only. -/
theorem foldl_preserves {α : Type} (f : Grid × PyRandom → α → Grid × PyRandom)
    (hf : ∀ s b, preserves_open s.1 (f s b).1) :
    ∀ (l : List α) (s : Grid × PyRandom), preserves_open s.1 (l.foldl f s).1 := by
  intro l
  induction l with
  | nil =>
    intro s
    exact preserves_open_rfl _
  | cons b l ih =>
    intro s
    exact preserves_open_trans (hf s b) (ih (f s b))

/-- Decoration scattering writes tree tiles, so it opens tiles only. -/
theorem add_decorations_preserves (g : Grid) (density : Rat) (r : PyRandom) :
    preserves_open g (add_decorations g density r).1 := by
  unfold add_decorations
  refine foldl_preserves _ ?_ _ (g, r)
  intro s y
  refine foldl_preserves _ ?_ _ s
  intro s2 x
  dsimp only
  split
  · intro Y X h
    dsimp only
    split
    · exact (by unfold non_wall; decide : non_wall GTile.tree)
    · exact h
  · exact preserves_open_rfl _

/-- After carving horizontally from `c1` and then vertically into `c2`, the
two corners are joined through the carved path tiles. -/
theorem reach_after_hv (g : Grid) (c1 c2 : Int × Int) :
    reachable
      (carve_v_corridor (carve_h_corridor g c1.1 c2.1 c1.2 GTile.path) c1.2 c2.2 c2.1 GTile.path)
      c1 c2 := by
  have hpres : preserves_open (carve_h_corridor g c1.1 c2.1 c1.2 GTile.path)
      (carve_v_corridor (carve_h_corridor g c1.1 c2.1 c1.2 GTile.path) c1.2 c2.2 c2.1 GTile.path) :=
    carve_v_preserves _ _ _ _ _ (by unfold non_wall; decide)
  have hH : ∀ X, min c1.1 c2.1 ≤ X → X ≤ max c1.1 c2.1 →
      non_wall ((carve_v_corridor (carve_h_corridor g c1.1 c2.1 c1.2 GTile.path)
        c1.2 c2.2 c2.1 GTile.path) c1.2 X) := by
    intro X h1 h2
    refine hpres _ _ ?_
    unfold carve_h_corridor
    rw [if_pos ⟨rfl, h1, h2⟩]
    unfold non_wall
    decide
  have hV : ∀ Y, min c1.2 c2.2 ≤ Y → Y ≤ max c1.2 c2.2 →
      non_wall ((carve_v_corridor (carve_h_corridor g c1.1 c2.1 c1.2 GTile.path)
        c1.2 c2.2 c2.1 GTile.path) Y c2.1) := by
    intro Y h1 h2
    unfold carve_v_corridor
    rw [if_pos ⟨rfl, h1, h2⟩]
    unfold non_wall
    decide
  have r1 := reach_h _ c1.2 c1.1 c2.1 hH
  have r2 := reach_v _ c2.1 c1.2 c2.2 hV
  exact Relation.ReflTransGen.trans r1 r2

/-- After carving vertically from `c1` and then horizontally into `c2`, the
two corners are joined through the carved path tiles. -/
theorem reach_after_vh (g : Grid) (c1 c2 : Int × Int) :
    reachable
      (carve_h_corridor (carve_v_corridor g c1.2 c2.2 c1.1 GTile.path) c1.1 c2.1 c2.2 GTile.path)
      c1 c2 := by
  have hpres : preserves_open (carve_v_corridor g c1.2 c2.2 c1.1 GTile.path)
      (carve_h_corridor (carve_v_corridor g c1.2 c2.2 c1.1 GTile.path) c1.1 c2.1 c2.2 GTile.path) :=
    carve_h_preserves _ _ _ _ _ (by unfold non_wall; decide)
  have hV : ∀ Y, min c1.2 c2.2 ≤ Y → Y ≤ max c1.2 c2.2 →
      non_wall ((carve_h_corridor (carve_v_corridor g c1.2 c2.2 c1.1 GTile.path)
        c1.1 c2.1 c2.2 GTile.path) Y c1.1) := by
    intro Y h1 h2
    refine hpres _ _ ?_
    unfold carve_v_corridor
    rw [if_pos ⟨rfl, h1, h2⟩]
    unfold non_wall
    decide
  have hH : ∀ X, min c1.1 c2.1 ≤ X → X ≤ max c1.1 c2.1 →
      non_wall ((carve_h_corridor (carve_v_corridor g c1.2 c2.2 c1.1 GTile.path)
        c1.1 c2.1 c2.2 GTile.path) c2.2 X) := by
    intro X h1 h2
    unfold carve_h_corridor
    rw [if_pos ⟨rfl, h1, h2⟩]
    unfold non_wall
    decide
  have r1 := reach_v _ c1.1 c1.2 c2.2 hV
  have r2 := reach_h _ c2.2 c1.1 c2.1 hH
  exact Relation.ReflTransGen.trans r1 r2

/-- The corridor loop both opens tiles only and joins the centers of every
processed pair of rooms in its resulting grid. -/
theorem connect_loop_spec :
    ∀ (prs : List (Rect × Rect)) (g : Grid) (r : PyRandom),
      preserves_open g (connect_loop g r prs).1 ∧
      ∀ pr ∈ prs, reachable (connect_loop g r prs).1 (center pr.1) (center pr.2) := by
  intro prs
  induction prs with
  | nil =>
    intro g r
    refine ⟨preserves_open_rfl g, ?_⟩
    intro pr hpr
    exact absurd hpr (List.not_mem_nil pr)
  | cons pr rest ih =>
    intro g r
    simp only [connect_loop]
    cases hb : (choice_bool r).1
    · simp only [hb, Bool.false_eq_true, if_false]
      have hpre : preserves_open g
          (carve_h_corridor (carve_v_corridor g (center pr.1).2 (center pr.2).2 (center pr.1).1
            GTile.path) (center pr.1).1 (center pr.2).1 (center pr.2).2 GTile.path) :=
        preserves_open_trans (carve_v_preserves _ _ _ _ _ (by unfold non_wall; decide))
          (carve_h_preserves _ _ _ _ _ (by unfold non_wall; decide))
      obtain ⟨ihp, ihr⟩ := ih _ (choice_bool r).2
      refine ⟨preserves_open_trans hpre ihp, ?_⟩
      intro pr2 hpr2
      rcases List.mem_cons.mp hpr2 with heq | hmem
      · subst heq
        exact reachable_mono ihp (reach_after_vh g (center pr2.1) (center pr2.2))
      · exact ihr pr2 hmem
    · simp only [hb, if_true]
      have hpre : preserves_open g
          (carve_v_corridor (carve_h_corridor g (center pr.1).1 (center pr.2).1 (center pr.1).2
            GTile.path) (center pr.1).2 (center pr.2).2 (center pr.2).1 GTile.path) :=
        preserves_open_trans (carve_h_preserves _ _ _ _ _ (by unfold non_wall; decide))
          (carve_v_preserves _ _ _ _ _ (by unfold non_wall; decide))
      obtain ⟨ihp, ihr⟩ := ih _ (choice_bool r).2
      refine ⟨preserves_open_trans hpre ihp, ?_⟩
      intro pr2 hpr2
      rcases List.mem_cons.mp hpr2 with heq | hmem
      · subst heq
        exact reachable_mono ihp (reach_after_hv g (center pr2.1) (center pr2.2))
      · exact ihr pr2 hmem

/-- Consecutive room centers are joined whenever every zipped pair is. -/
theorem consecutive_reach (g : Grid) (rooms : List Rect)
    (h : ∀ pr ∈ rooms.zip rooms.tail, reachable g (center pr.1) (center pr.2))
    (i : Nat) (hi : i + 1 < rooms.length) :
    reachable g (center (rooms.get ⟨i, by omega⟩)) (center (rooms.get ⟨i + 1, hi⟩)) := by
  have hlen : i < (rooms.zip rooms.tail).length := by
    rw [List.length_zip, List.length_tail]
    omega
  have hval : (rooms.zip rooms.tail).get ⟨i, hlen⟩ =
      (rooms.get ⟨i, by omega⟩, rooms.get ⟨i + 1, hi⟩) := by
    rw [List.get_zip]
    refine congrArg _ ?_
    rw [List.get_tail]
  have hmem : (rooms.get ⟨i, by omega⟩, rooms.get ⟨i + 1, hi⟩) ∈ rooms.zip rooms.tail := by
    rw [← hval]
    exact List.get_mem _ _ _
  exact h _ hmem

/-- Chaining consecutive-center reachability `k` rooms forward. -/
theorem chain_reach_up (g : Grid) (rooms : List Rect)
    (h : ∀ pr ∈ rooms.zip rooms.tail, reachable g (center pr.1) (center pr.2)) :
    ∀ (k i : Nat) (hik : i + k < rooms.length),
      reachable g (center (rooms.get ⟨i, by omega⟩)) (center (rooms.get ⟨i + k, hik⟩)) := by
  intro k
  induction k with
  | zero =>
    intro i hik
    exact Relation.ReflTransGen.refl
  | succ k ih =>
    intro i hik
    have h1 := consecutive_reach g rooms h i (by omega)
    have h2 := ih (i + 1) (by omega)
    have h3 : rooms.get ⟨i + 1 + k, by omega⟩ = rooms.get ⟨i + (k + 1), hik⟩ := by
      apply congrArg
      exact Fin.ext (show i + 1 + k = i + (k + 1) by omega)
    rw [h3] at h2
    exact Relation.ReflTransGen.trans h1 h2

/-- Every pair of room centers is joined whenever every zipped consecutive
pair is: go up the acceptance order and use symmetry for the way down. -/
theorem reach_all_pairs (g : Grid) (rooms : List Rect)
    (h : ∀ pr ∈ rooms.zip rooms.tail, reachable g (center pr.1) (center pr.2))
    (i j : Fin rooms.length) :
    reachable g (center (rooms.get i)) (center (rooms.get j)) := by
  rcases le_total i.1 j.1 with hle | hle
  · have h2 := chain_reach_up g rooms h (j.1 - i.1) i.1 (by omega)
    have h3 : rooms.get ⟨i.1 + (j.1 - i.1), by omega⟩ = rooms.get j := by
      apply congrArg
      exact Fin.ext (show i.1 + (j.1 - i.1) = j.1 by omega)
    have h4 : rooms.get ⟨i.1, by omega⟩ = rooms.get i := by
      apply congrArg
      exact Fin.ext rfl
    rwa [h3, h4] at h2
  · have h2 := chain_reach_up g rooms h (i.1 - j.1) j.1 (by omega)
    have h3 : rooms.get ⟨j.1 + (i.1 - j.1), by omega⟩ = rooms.get i := by
      apply congrArg
      exact Fin.ext (show j.1 + (i.1 - j.1) = i.1 by omega)
    have h4 : rooms.get ⟨j.1, by omega⟩ = rooms.get j := by
      apply congrArg
      exact Fin.ext rfl
    rw [h3, h4] at h2
    exact reachable_symm h2

/-- The castle phase — placing castles in the two largest rooms when at
least two exist — opens tiles only. -/
theorem castle_phase_preserves (g : Grid) (rooms : List Rect) :
    preserves_open g
      (match rooms.mergeSort (fun a b => decide (area b ≤ area a)) with
       | a :: b :: _ =>
         place_castle (place_castle g (castle_origin a) GTile.castle) (castle_origin b) GTile.castle
       | _ => g) := by
  cases rooms.mergeSort (fun a b => decide (area b ≤ area a)) with
  | nil => exact preserves_open_rfl g
  | cons a rest =>
    cases rest with
    | nil => exact preserves_open_rfl g
    | cons b rest2 =>
      exact preserves_open_trans (place_castle_preserves _ _) (place_castle_preserves _ _)

/-- The landmark and decoration phases after room/corridor carving open
tiles only. -/
theorem generate_map_with_preserves (n : Nat) (r : PyRandom) :
    preserves_open (create_rooms_and_corridors n (fun _ _ => GTile.background) r).1
      (generate_map_with n r).1 := by
  unfold generate_map_with
  dsimp only
  exact preserves_open_trans (castle_phase_preserves _ _) (add_decorations_preserves _ _ _)

/-- Right after room/corridor carving, every zipped consecutive room pair
has its centers joined. -/
theorem create_pairs_reach (n : Nat) (g : Grid) (r : PyRandom) :
    ∀ pr ∈ (create_rooms_and_corridors n g r).2.1.zip (create_rooms_and_corridors n g r).2.1.tail,
      reachable (create_rooms_and_corridors n g r).1 (center pr.1) (center pr.2) := by
  unfold create_rooms_and_corridors
  dsimp only
  exact (connect_loop_spec _ _ _).2

/-- Claim C7: after generation completes — room carving, corridor carving,
castle landmark placement and decoration — every pair of accepted rooms has
the center of one reachable from the center of the other through tiles
classified as non-wall, for every random stream (hence every seed) and
every requested room count. -/
theorem claim7_rooms_connected (n_rooms : Nat) (r : PyRandom) (ra rb : Rect)
    (hra : ra ∈ (generate_map_with n_rooms r).2.1)
    (hrb : rb ∈ (generate_map_with n_rooms r).2.1) :
    reachable (generate_map_with n_rooms r).1 (center ra) (center rb) := by
  have hrooms : (generate_map_with n_rooms r).2.1 =
      (create_rooms_and_corridors n_rooms (fun _ _ => GTile.background) r).2.1 := rfl
  rw [hrooms] at hra hrb
  have hpairs : ∀ pr ∈ (create_rooms_and_corridors n_rooms (fun _ _ => GTile.background) r).2.1.zip
      (create_rooms_and_corridors n_rooms (fun _ _ => GTile.background) r).2.1.tail,
      reachable (generate_map_with n_rooms r).1 (center pr.1) (center pr.2) := by
    intro pr hpr
    exact reachable_mono (generate_map_with_preserves n_rooms r)
      (create_pairs_reach n_rooms (fun _ _ => GTile.background) r pr hpr)
  obtain ⟨i, hi⟩ := List.get_of_mem hra
  obtain ⟨j, hj⟩ := List.get_of_mem hrb
  rw [← hi, ← hj]
  exact reach_all_pairs _ _ hpairs i j

/-- Claim C7 witness: on the witness stream the two accepted rooms
`(1, 1, 5, 4)` and `(31, 1, 11, 4)` have connected centers in the final
generated grid. -/
theorem claim7_rooms_connected_witness :
    ((1, 1, 5, 4) : Rect) ∈ witness_gen.2.1 ∧
    ((31, 1, 11, 4) : Rect) ∈ witness_gen.2.1 ∧
    reachable witness_gen.1 (center (1, 1, 5, 4)) (center (31, 1, 11, 4)) := by
  have h1 : ((1, 1, 5, 4) : Rect) ∈ witness_gen.2.1 := by decide
  have h2 : ((31, 1, 11, 4) : Rect) ∈ witness_gen.2.1 := by decide
  exact ⟨h1, h2, claim7_rooms_connected 2 ⟨witness_stream, 0⟩ (1, 1, 5, 4) (31, 1, 11, 4) h1 h2⟩
